import Mathlib

/-!
Verification development for the pypylon-opencv-viewer repository.

The development shallowly embeds `pypylon_opencv_viewer/viewer.py`
(`BaslerOpenCVViewer`): the configuration interpreter (`set_configuration`,
`_process_feature`), dependency propagation
(`_event_handler_for_dependencies`), the refresh of widget values from the
camera (`_update_values_from_camera`, `_update_values_from_widgets`), the row
layout (`_order_widgets_to_rows`), and the two capture loops
(`_run_continuous_shot`, `_run_single_shot`).

Modelling conventions:
  - Python dicts become association lists with insertion-order semantics
    (`dict_insert` updates an existing key in place and appends a new key).
  - Camera feature values (int, float, bool, string) become `FeatValue`;
    numeric bounds are modelled over `Int` since the bound logic is purely
    order-theoretic.
  - Exceptions become `Except String`; Python `warnings.warn` becomes an
    accumulated list of `ConfigWarning` values.
  - ipywidgets traitlets semantics: assigning `widget.value` fires the
    registered observers when the value actually changes; this is modelled by
    `set_widget_value`.
-/

namespace PCV

/-- Lookup in a Python-dict-like association list (first binding wins). -/
def dict_lookup {α : Type} : List (String × α) → String → Option α
  | [], _ => none
  | (k, v) :: rest, k2 => if k = k2 then some v else dict_lookup rest k2

/-- Python dict assignment: update an existing key in place, otherwise append. -/
def dict_insert {α : Type} : List (String × α) → String → α → List (String × α)
  | [], k, v => [(k, v)]
  | (k1, v1) :: rest, k, v =>
      if k1 = k then (k, v) :: rest else (k1, v1) :: dict_insert rest k v

/-- Python double-splat merge: entries of `b` override entries of `a`. -/
def dict_merge {α : Type} (a b : List (String × α)) : List (String × α) :=
  b.foldl (fun acc kv => dict_insert acc kv.1 kv.2) a

/-- A camera feature value: the viewer manipulates integer, float, boolean and
string (enumeration) valued pylon features.  Floats are modelled by the same
numeric embedding as ints since the viewer never computes with them. -/
inductive FeatValue where
  | num (n : Int)
  | boolv (b : Bool)
  | str (s : String)
deriving DecidableEq, Repr

/-- The slice of a pylon camera node used by the viewer: GetValue, GetMin,
GetMax and GetInc (GetInc may fail, hence the Option). -/
structure PylonFeature where
  value : FeatValue
  minValue : Int
  maxValue : Int
  increment : Option Int
deriving DecidableEq, Repr

/-- The camera collaborator: named features (getattr by name), the current
user-set selector, and a counter of device writes performed through widget
propagation (setattr calls). -/
structure Camera where
  features : List (String × PylonFeature)
  userSetSelector : String
  writes : Nat
deriving DecidableEq, Repr

/-- One feature descriptor of the configuration, mirroring the keys read by
`_process_feature`: name, type, value, max, min, step, options, unit,
dependency, style, layout. -/
structure Feature where
  name : Option String
  type : Option String
  value : Option FeatValue
  maxVal : Option Int
  minVal : Option Int
  step : Option Int
  options : Option (List FeatValue)
  unit : Option String
  dependency : Option (List (String × FeatValue))
  style : Option (List (String × String))
  layout : Option (List (String × String))

/-- The widget produced for a feature descriptor (the kwargs passed to the
ipywidgets constructor, plus the enabled and disabled flag). -/
structure Widget where
  value : FeatValue
  step : Option Int
  maxVal : Option Int
  minVal : Option Int
  options : Option (List FeatValue)
  description : String
  style : List (String × String)
  layout : List (String × String)
  disabled : Bool
deriving DecidableEq, Repr

/-- Warnings emitted through warnings.warn during configuration
interpretation. -/
inductive ConfigWarning where
  | missingFeatures
  | valueNotInOptions (name : String) (value : FeatValue)
deriving DecidableEq, Repr

/-- Interpretation state threaded through `_process_feature`: the
new_interact_camera_widgets dict, the dependencies dict and the accumulated
warnings. -/
structure IState where
  widgets : List (String × Widget)
  deps : List (String × List (String × FeatValue))
  warns : List ConfigWarning
deriving DecidableEq, Repr

/-- The keys of BaslerOpenCVViewer.WIDGET_TYPES. -/
def WIDGET_TYPES : List String :=
  ["int", "float", "bool", "int_text", "float_text", "choice_text"]

/-- The numeric widget kinds of the first branch of `_process_feature`. -/
def numeric_types : List String := ["int", "float", "int_text", "float_text"]

/-- BaslerOpenCVViewer._default_style. -/
def default_style : List (String × String) := [("description_width", "initial")]

/-- BaslerOpenCVViewer._default_layout. -/
def default_layout : List (String × String) :=
  [("width", "100%"), ("height", "50px"), ("align_items", "center")]

/-- The label derivation: insert a space at each lowercase-to-uppercase
transition, as the regex substitution on the feature name does. -/
def insert_spaces : List Char → List Char
  | [] => []
  | [c] => [c]
  | c1 :: c2 :: rest =>
      if c1.isLower ∧ c2.isUpper then c1 :: ' ' :: insert_spaces (c2 :: rest)
      else c1 :: insert_spaces (c2 :: rest)

/-- Label text for a feature name. -/
def spaced_name (s : String) : String := String.mk (insert_spaces s.data)

/-- The branch-specific widget kwargs computed by `_process_feature` for a
given widget type, together with the warnings the branch emits.  The min and
max resolution reproduces the source lines exactly: the resolved bound is the
supplied bound when it is less than or equal to the device bound, and the
device bound otherwise, for both max and min. -/
structure Kwargs where
  value : FeatValue
  step : Option Int
  maxVal : Option Int
  minVal : Option Int
  options : Option (List FeatValue)
deriving DecidableEq, Repr

def branch_for (camera : Camera) (feature : Feature) (feature_name type_name : String) :
    Except String (Kwargs × List ConfigWarning) :=
  if numeric_types.contains type_name then
    match dict_lookup camera.features feature_name with
    | none => .error ("Camera does not have attribute " ++ feature_name)
    | some pf =>
        let value := feature.value.getD pf.value
        let step := match feature.step with
          | some s => s
          | none => pf.increment.getD 1
        let max0 := feature.maxVal.getD pf.maxValue
        let max_value := if max0 ≤ pf.maxValue then max0 else pf.maxValue
        let min0 := feature.minVal.getD pf.minValue
        let min_value := if min0 ≤ pf.minValue then min0 else pf.minValue
        .ok (⟨value, some step, some max_value, some min_value, none⟩, [])
  else if type_name = "bool" then
    match dict_lookup camera.features feature_name with
    | none => .error ("Camera does not have attribute " ++ feature_name)
    | some pf => .ok (⟨feature.value.getD pf.value, none, none, none, none⟩, [])
  else if type_name = "choice_text" then
    match dict_lookup camera.features feature_name with
    | none => .error ("Camera does not have attribute " ++ feature_name)
    | some pf =>
        let value := feature.value.getD pf.value
        match feature.options with
        | none => .error "Widget choice_text has mandatory attribute options (list)"
        | some [] => .error "Attribute options cannot be empty"
        | some (o0 :: os) =>
            if (o0 :: os).contains value then
              .ok (⟨value, none, none, none, some (o0 :: os)⟩, [])
            else
              .ok (⟨o0, none, none, none, some (o0 :: os)⟩,
                   [ConfigWarning.valueNotInOptions feature_name value])
  else
    -- unreachable under the WIDGET_TYPES membership guard of process_feature;
    -- in particular the h_box branch of the source is dead code because
    -- WIDGET_TYPES has no h_box key, so the type check raises first
    .error "unreachable widget type"

/-- The dependency registration loop of `_process_feature`: for each pair
(controlling feature, required condition) of the descriptor dependency dict,
record (descriptor name, condition) under the controlling feature. -/
def register_dependency (feature_name : String) (dep_list : List (String × FeatValue))
    (ds : List (String × List (String × FeatValue))) :
    List (String × List (String × FeatValue)) :=
  dep_list.foldl
    (fun ds2 fc =>
      dict_insert ds2 fc.1
        (dict_insert ((dict_lookup ds2 fc.1).getD []) feature_name fc.2))
    ds

/-- Embedding of `_process_feature`: register the dependency entries of the
descriptor, validate the type, resolve the branch kwargs, derive the label,
merge style and layout with the defaults, and store the widget under the
feature name. -/
def process_feature (camera : Camera) (feature : Feature) (st : IState) :
    Except String IState :=
  match feature.name with
  | none => .error "The name attribute cannot be None"
  | some feature_name =>
      let deps := match feature.dependency with
        | none => st.deps
        | some dep_list => register_dependency feature_name dep_list st.deps
      match feature.type with
      | none => .error "The type attribute cannot be None"
      | some type_name =>
          if WIDGET_TYPES.contains type_name then
            match branch_for camera feature feature_name type_name with
            | .error e => .error e
            | .ok (kw, ws) =>
                let descr0 := spaced_name feature_name
                let descr1 := match feature.unit with
                  | some u => descr0 ++ " [" ++ u ++ "]"
                  | none => descr0
                let descr := if type_name = "bool" then descr1 else descr1 ++ ":"
                let style := dict_merge default_style (feature.style.getD [])
                let layout := dict_merge default_layout (feature.layout.getD [])
                .ok ⟨dict_insert st.widgets feature_name
                      ⟨kw.value, kw.step, kw.maxVal, kw.minVal, kw.options,
                       descr, style, layout, false⟩,
                     deps, st.warns ++ ws⟩
          else .error ("Widget type name is not valid: " ++ type_name)

/-- The feature loop of `set_configuration`. -/
def process_features (camera : Camera) : List Feature → IState → Except String IState
  | [], st => .ok st
  | f :: rest, st =>
      match process_feature camera f st with
      | .error e => .error e
      | .ok st2 => process_features camera rest st2

/-- One action widget (buttons, the status label, the user-set toggle):
description text plus a current value (empty for buttons). -/
structure AWidget where
  description : String
  value : String
deriving DecidableEq, Repr

/-- The BaslerOpenCVViewer instance state used by the embedded methods. -/
structure Viewer where
  camera : Camera
  interact_camera_widgets : List (String × Widget)
  dependecies : List (String × List (String × FeatValue))
  default_user_set : Option String
  disable_updates : Bool
  features_layout : List (List String)
  actions_layout : List (List String)
  interact_action_widgets : List (String × AWidget)
deriving DecidableEq, Repr

/-- The configuration mapping passed to `set_configuration`; a missing key is
`none`. -/
structure Config where
  features : Option (List Feature)
  features_layout : Option (List (List String))
  actions_layout : Option (List (List String))
  default_user_set : Option String

/-- Viewer state after `__init__` with a given camera. -/
def initial_viewer (camera : Camera) : Viewer :=
  ⟨camera, [], [], none, false, [],
   [["StatusLabel"], ["SaveConfig", "LoadConfig", "ContinuousShot", "SingleShot"],
    ["UserSet"]], []⟩

/-- Embedding of `_add_user_actions_to_widgets`: build the action widget dict
from scratch; when no default user set is configured, show the UserSet toggle
initialised from the device selector, otherwise switch the device selector to
the configured slot. -/
def add_user_actions_to_widgets (v : Viewer) : Viewer :=
  let base : List (String × AWidget) := []
  let cw : Camera × List (String × AWidget) :=
    match v.default_user_set with
    | none => (v.camera, dict_insert base "UserSet" ⟨"User Set", v.camera.userSetSelector⟩)
    | some s => ({ v.camera with userSetSelector := s }, base)
  let aw := dict_insert cw.2 "LoadConfig" ⟨"Load configuration", ""⟩
  let aw := dict_insert aw "SaveConfig" ⟨"Save configuration", ""⟩
  let aw := dict_insert aw "ContinuousShot" ⟨"Continuous shot", ""⟩
  let aw := dict_insert aw "SingleShot" ⟨"Single shot", ""⟩
  let aw := dict_insert aw "StatusLabel" ⟨"Status", "Status: Connection was established"⟩
  { v with camera := cw.1, interact_action_widgets := aw }

/-- The loop body of `_event_handler_for_dependencies`: for each
(feature, condition) pair of the trigger, set the dependent widget disabled
flag to (new value is not equal to the condition).  A dependent name missing
from the widget dict is a KeyError. -/
def set_dependent_disabled (newVal : FeatValue) :
    List (String × FeatValue) → Viewer → Except String Viewer
  | [], v => .ok v
  | (feat, cond) :: rest, v =>
      match dict_lookup v.interact_camera_widgets feat with
      | none => .error ("KeyError: " ++ feat)
      | some w =>
          let w2 := { w with disabled := decide (newVal ≠ cond) }
          set_dependent_disabled newVal rest
            { v with interact_camera_widgets := dict_insert v.interact_camera_widgets feat w2 }

/-- Embedding of `_event_handler_for_dependencies`. -/
def event_handler_for_dependencies (v : Viewer) (trigger : String) (newVal : FeatValue) :
    Except String Viewer :=
  match dict_lookup v.dependecies trigger with
  | none => .error ("KeyError: " ++ trigger)
  | some entries => set_dependent_disabled newVal entries v

/-- The final loop of `set_configuration`: for each dependency trigger, fail
when the trigger is not a known widget, otherwise register the observer and
fire the handler once synthetically with the current widget value. -/
def register_deps : Viewer → List String → Except String Viewer
  | v, [] => .ok v
  | v, trigger :: rest =>
      match dict_lookup v.interact_camera_widgets trigger with
      | none => .error ("Unknown widget " ++ trigger ++ " listed in dependecies")
      | some w =>
          match event_handler_for_dependencies v trigger w.value with
          | .error e => .error e
          | .ok v2 => register_deps v2 rest

/-- Embedding of `set_configuration`: process the features (warning when the
features key is absent), take over the layouts and the default user set,
install the action widgets, store the new widget and dependency dicts, then
validate and fire each dependency trigger. -/
def set_configuration (v : Viewer) (cfg : Config) :
    Except String (Viewer × List ConfigWarning) :=
  let st0 : IState := ⟨[], [], []⟩
  let stE : Except String IState :=
    match cfg.features with
    | some fs => process_features v.camera fs st0
    | none => .ok { st0 with warns := [ConfigWarning.missingFeatures] }
  match stE with
  | .error e => .error e
  | .ok st =>
      let v1 := { v with
        features_layout := cfg.features_layout.getD v.features_layout,
        actions_layout := cfg.actions_layout.getD v.actions_layout,
        default_user_set := match cfg.default_user_set with
          | some s => some s
          | none => v.default_user_set }
      let v2 := add_user_actions_to_widgets v1
      let v3 := { v2 with dependecies := st.deps, interact_camera_widgets := st.widgets }
      match register_deps v3 (st.deps.map Prod.fst) with
      | .error e => .error e
      | .ok v4 => .ok (v4, st.warns)

/-- A device property write through setattr: update the feature value and
count the write. -/
def camera_setattr (c : Camera) (n : String) (val : FeatValue) : Camera :=
  { c with
    features := match dict_lookup c.features n with
      | some pf => dict_insert c.features n { pf with value := val }
      | none => c.features,
    writes := c.writes + 1 }

/-- Embedding of `_update_values_from_widgets`: when updates are not
suppressed, propagate every enabled widget value to the device. -/
def update_values_from_widgets (v : Viewer) : Viewer :=
  if v.disable_updates then v
  else
    let cam2 := v.interact_camera_widgets.foldl
      (fun cam nw => if nw.2.disabled then cam else camera_setattr cam nw.1 nw.2.value)
      v.camera
    { v with camera := cam2 }

/-- Assigning `widget.value` in ipywidgets: when the value changes, the
registered observers fire, first the dependency handler (registered in
`set_configuration` for dependency triggers), then the interactive_output
observer that runs `_update_values_from_widgets`. -/
def set_widget_value (v : Viewer) (name : String) (newVal : FeatValue) :
    Except String Viewer :=
  match dict_lookup v.interact_camera_widgets name with
  | none => .error ("KeyError: " ++ name)
  | some w =>
      if w.value = newVal then .ok v
      else
        let nw := dict_insert v.interact_camera_widgets name { w with value := newVal }
        let v1 := { v with interact_camera_widgets := nw }
        let v2E :=
          if (dict_lookup v1.dependecies name).isSome then
            event_handler_for_dependencies v1 name newVal
          else .ok v1
        match v2E with
        | .error e => .error e
        | .ok v2 => .ok (update_values_from_widgets v2)

/-- The refresh loop of `_update_values_from_camera`, over the widget names. -/
def refresh_widgets_from_camera : Viewer → List String → Except String Viewer
  | v, [] => .ok v
  | v, n :: rest =>
      match dict_lookup v.camera.features n with
      | none => .error ("LogicalErrorException: " ++ n)
      | some pf =>
          match set_widget_value v n pf.value with
          | .error e => .error e
          | .ok v2 => refresh_widgets_from_camera v2 rest

/-- Embedding of `_update_values_from_camera`: suppress updates, copy every
device value into its widget, then release the suppression flag. -/
def update_values_from_camera (v : Viewer) : Except String Viewer :=
  let v1 := { v with disable_updates := true }
  match refresh_widgets_from_camera v1 (v.interact_camera_widgets.map Prod.fst) with
  | .error e => .error e
  | .ok v2 => .ok { v2 with disable_updates := false }

/-- Write to the status label action widget (a no-op when the label is not
installed; `_add_user_actions_to_widgets` always installs it). -/
def set_status (v : Viewer) (s : String) : Viewer :=
  { v with interact_action_widgets :=
      match dict_lookup v.interact_action_widgets "StatusLabel" with
      | some w => dict_insert v.interact_action_widgets "StatusLabel" { w with value := s }
      | none => v.interact_action_widgets }

/-- The Load configuration branch of `_button_clicked`: status update, device
UserSetLoad (an opaque device-side transition, passed as a function), refresh
of all widget values from the device, status update. -/
def load_config_action (v : Viewer) (device_load : Camera → Camera) :
    Except String Viewer :=
  let va := set_status v ("Status: Loading configuration from " ++ v.camera.userSetSelector)
  let vb := { va with camera := device_load va.camera }
  match update_values_from_camera vb with
  | .error e => .error e
  | .ok v2 =>
      .ok (set_status v2 ("Status: Configuration was loaded from " ++ v2.camera.userSetSelector))

/-- One rendered row of the panel: an HBox of the widgets of a layout row, or
a single trailing widget. -/
inductive RowItem (α : Type) where
  | hbox (ws : List α)
  | single (w : α)
deriving DecidableEq, Repr

/-- Embedding of `_order_widgets_to_rows`: keep each layout row all of whose
names are known (the for-else drops a row on the first unknown name), then
append every widget whose name was not rearranged into a kept row. -/
def order_widgets_to_rows {α : Type} (rows : List (List String))
    (wdgts : List (String × α)) : List (RowItem α) :=
  let res := rows.foldl
    (fun (acc : List String × List (RowItem α)) items_in_row =>
      if items_in_row.all (fun item => (dict_lookup wdgts item).isSome) then
        (acc.1 ++ items_in_row,
         acc.2 ++ [RowItem.hbox (items_in_row.filterMap (dict_lookup wdgts))])
      else acc)
    ([], [])
  res.2 ++ (wdgts.filter (fun kv => ¬ res.1.contains kv.1)).map
    (fun kv => RowItem.single kv.2)

/-- The row layout restated from the specification text: rows whose names are
all present are rendered in list order, a row with any absent name is dropped
entirely, and every control not mentioned in a rendered row is appended as a
trailing single-item row. -/
def layout_rows_spec {α : Type} (rows : List (List String))
    (wdgts : List (String × α)) : List (RowItem α) :=
  let kept := rows.filter (fun r => r.all (fun item => (dict_lookup wdgts item).isSome))
  kept.map (fun r => RowItem.hbox (r.filterMap (dict_lookup wdgts))) ++
    (wdgts.filter (fun kv => ¬ kept.flatten.contains kv.1)).map (fun kv => RowItem.single kv.2)

/-- Result of the user image-processing callback as inspected by the capture
loops: an array-shaped frame or anything else. -/
inductive CbResult where
  | arr (img : Nat)
  | other
deriving DecidableEq, Repr

/-- The capture-relevant viewer configuration: whether the callback owns its
own display surface, and the optional callback itself (frames are abstracted
to Nat). -/
structure RunCfg where
  impro_own_window : Bool
  impro_function : Option (Nat → CbResult)

/-- A pylon grab result: success flag and converted image. -/
structure GrabResult where
  succeeded : Bool
  image : Nat
deriving DecidableEq, Repr

/-- External inputs of one continuous-shot iteration: the RetrieveResult
outcome (none models the timeout exception of TimeoutHandling_ThrowException)
and the key reported by the display surface poll. -/
structure IterInput where
  retrieve : Option GrabResult
  key : Option Char
deriving DecidableEq, Repr

/-- Acquisition-resource and status state of a capture run.  The status field
models the StatusLabel value; saved counts frames written to disk. -/
structure RunState where
  grabbing : Bool
  windowOpen : Bool
  status : String
  saved : Nat
deriving DecidableEq, Repr

/-- How a capture run ends: normal quit or return, the RetrieveResult timeout
exception, or the ValueError for a non-array callback result. -/
inductive RunOutcome where
  | quit
  | errTimeout
  | errInvalidCallback
deriving DecidableEq, Repr

/-- Frame dispatch shared by both capture loops: in own-window mode the
callback (when set) displays the frame itself and its result is ignored;
otherwise a set callback must return an array, and the raw or processed frame
is shown in the driver window.  `none` models the ValueError path. -/
def dispatch_frame (cfg : RunCfg) (img : Nat) : Option Nat :=
  if cfg.impro_own_window then
    match cfg.impro_function with
    | some f => (fun _ => some img) (f img)
    | none => some img
  else
    match cfg.impro_function with
    | some f =>
        match f img with
        | .arr img2 => some img2
        | .other => none
    | none => some img

/-- The while loop of `_run_continuous_shot`: grab with a bounded wait, skip
failed grabs, dispatch successful frames, then handle the save and quit keys.
`none` means the supplied input list ended while the loop was still running. -/
def continuous_loop (cfg : RunCfg) : RunState → List IterInput → Option (RunOutcome × RunState)
  | st, [] => if st.grabbing then none else some (.quit, st)
  | st, it :: rest =>
      if st.grabbing then
        match it.retrieve with
        | none => some (.errTimeout, st)
        | some gr =>
            if gr.succeeded then
              match dispatch_frame cfg gr.image with
              | none => some (.errInvalidCallback, { st with windowOpen := false })
              | some _img =>
                  if it.key = some 's' ∧ cfg.impro_own_window = false then
                    continuous_loop cfg
                      { st with saved := st.saved + 1,
                                status := "Status: Grabbed image was saved" } rest
                  else if it.key = some 'q' then some (.quit, st)
                  else continuous_loop cfg st rest
            else continuous_loop cfg st rest
      else some (.quit, st)

/-- Embedding of `_run_continuous_shot`: stop grabbing, open the driver window
unless the callback owns one, start grabbing, run the loop, and in the finally
block destroy all windows and stop grabbing on every exit path. -/
def run_continuous_shot (cfg : RunCfg) (st : RunState) (inputs : List IterInput) :
    Option (RunOutcome × RunState) :=
  let st1 := { st with grabbing := false }
  let st2 := if cfg.impro_own_window then st1 else { st1 with windowOpen := true }
  let st3 := { st2 with grabbing := true }
  match continuous_loop cfg st3 inputs with
  | none => none
  | some (o, st4) => some (o, { st4 with windowOpen := false, grabbing := false })

/-- The keyboard wait loop of `_run_single_shot`: save on the save key (when
the driver owns the window), leave on the quit key. -/
def single_keyloop (own : Bool) : RunState → List (Option Char) → Option (RunOutcome × RunState)
  | _, [] => none
  | st, k :: rest =>
      if k = some 's' ∧ own = false then
        single_keyloop own
          { st with saved := st.saved + 1,
                    status := "Status: The grabbed image was saved" } rest
      else if k = some 'q' then some (.quit, st)
      else single_keyloop own st rest

/-- Embedding of `_run_single_shot`: stop grabbing, open the driver window
unless the callback owns one, grab one frame with a bounded wait; a failed
grab is reported through the status label and returns after destroying the
windows; a successful frame is dispatched (ValueError on a non-array callback
result, after destroying the windows), then the keyboard loop runs until quit
and the windows are destroyed. -/
def run_single_shot (cfg : RunCfg) (st : RunState) (gr : GrabResult)
    (keys : List (Option Char)) : Option (RunOutcome × RunState) :=
  let st1 := { st with grabbing := false }
  let st2 := if cfg.impro_own_window then st1 else { st1 with windowOpen := true }
  if gr.succeeded = false then
    some (.quit, { st2 with status := "Status: The single shot action has failed.",
                            windowOpen := false })
  else
    let st3 := { st2 with status := "Status: The single shot was successfully grabbed." }
    match dispatch_frame cfg gr.image with
    | none => some (.errInvalidCallback, { st3 with windowOpen := false })
    | some _img =>
        match single_keyloop cfg.impro_own_window st3 keys with
        | none => none
        | some (o, st4) => some (o, { st4 with windowOpen := false })

/-- Bounded well-formedness of the dependency table against the widget dict:
every dependent name of every trigger entry is a known widget. -/
def deps_wf (v : Viewer) : Prop :=
  ∀ p ∈ v.dependecies, ∀ q ∈ p.2,
    (dict_lookup v.interact_camera_widgets q.1).isSome = true

/-- The invariant of the interpretation state: every nested dependency key
names a widget already present in the widget dict. -/
def nested_ok (st : IState) : Prop :=
  ∀ p ∈ st.deps, ∀ q ∈ p.2, (dict_lookup st.widgets q.1).isSome = true

/-- The dependency dict and each of its entry dicts have distinct keys (the
dict embedding preserves this by construction). -/
def deps_keys_nodup (st : IState) : Prop :=
  (st.deps.map Prod.fst).Nodup ∧ ∀ p ∈ st.deps, (p.2.map Prod.fst).Nodup

/-- What the dependency-propagation steps leave untouched: everything except
widget disabled flags (camera, dependency table, suppression flag, action
widgets, widget key set and widget values). -/
def preserves (v v2 : Viewer) : Prop :=
  v2.camera = v.camera ∧ v2.dependecies = v.dependecies ∧
  v2.disable_updates = v.disable_updates ∧
  v2.interact_action_widgets = v.interact_action_widgets ∧
  (∀ n, (dict_lookup v2.interact_camera_widgets n).isSome =
        (dict_lookup v.interact_camera_widgets n).isSome) ∧
  (∀ n, (dict_lookup v2.interact_camera_widgets n).map Widget.value =
        (dict_lookup v.interact_camera_widgets n).map Widget.value)

/-! Concrete inputs used by the witness theorems below. -/

/-- A device feature for a feature named Gain: value 20, range 5 to 100,
increment 1. -/
def gain_pf : PylonFeature := ⟨FeatValue.num 20, 5, 100, some 1⟩

/-- A camera exposing only the Gain feature. -/
def gain_camera : Camera := ⟨[("Gain", gain_pf)], "UserSet1", 0⟩

/-- A descriptor supplying min 3, below the device-reported min 5. -/
def gain_min_feature : Feature :=
  ⟨some "Gain", some "int", none, none, some 3, none, none, none, none, none, none⟩

/-- A descriptor supplying max 200, above the device-reported max 100. -/
def gain_max_feature : Feature :=
  ⟨some "Gain", some "int", none, some 200, none, none, none, none, none, none, none⟩

/-- The resolved widget min produced by process_feature for a camera and
descriptor, starting from the empty interpretation state. -/
def resolved_min (camera : Camera) (feature : Feature) (n : String) : Option (Option Int) :=
  match process_feature camera feature ⟨[], [], []⟩ with
  | .ok st => (dict_lookup st.widgets n).map Widget.minVal
  | .error _ => none

/-- The resolved widget max, analogously. -/
def resolved_max (camera : Camera) (feature : Feature) (n : String) : Option (Option Int) :=
  match process_feature camera feature ⟨[], [], []⟩ with
  | .ok st => (dict_lookup st.widgets n).map Widget.maxVal
  | .error _ => none

/-- A camera exposing a string-valued TriggerMode feature whose current device
value is X. -/
def mode_camera : Camera := ⟨[("TriggerMode", ⟨FeatValue.str "X", 0, 0, none⟩)], "UserSet1", 0⟩

/-- A choice descriptor for TriggerMode whose options do not contain the
device value X. -/
def mode_feature : Feature :=
  ⟨some "TriggerMode", some "choice_text", none, none, none, none,
   some [FeatValue.str "On", FeatValue.str "Off"], none, none, none, none⟩

/-- A camera exposing two int features A and B. -/
def ab_camera : Camera :=
  ⟨[("A", ⟨FeatValue.num 1, 0, 10, some 1⟩), ("B", ⟨FeatValue.num 2, 0, 10, some 1⟩)],
   "UserSet1", 0⟩

/-- Descriptor for A declaring a dependency on B (required value 2), listed
before B is processed. -/
def featA : Feature :=
  ⟨some "A", some "int", none, none, none, none, none, none,
   some [("B", FeatValue.num 2)], none, none⟩

/-- Descriptor for B, with no dependency. -/
def featB : Feature :=
  ⟨some "B", some "int", none, none, none, none, none, none, none, none, none⟩

/-- A configuration whose first descriptor references the second through a
dependency (a forward reference). -/
def forward_dep_config : Config := ⟨some [featA, featB], none, none, none⟩

/-- A configuration with no features key at all. -/
def no_features_config : Config := ⟨none, none, none, some "UserSet2"⟩

/-- Capture configuration without a callback (driver owns the window). -/
def w_cfg_plain : RunCfg := ⟨false, none⟩

/-- Capture configuration with a callback that never returns an array. -/
def w_cfg_bad : RunCfg := ⟨false, some (fun _ => CbResult.other)⟩

/-- An idle initial run state. -/
def w_st : RunState := ⟨false, false, "", 0⟩

/-- One continuous-shot iteration: successful grab, quit key. -/
def w_iter_q : IterInput := ⟨some ⟨true, 7⟩, some 'q'⟩

/-- A successful grab result. -/
def w_gr_ok : GrabResult := ⟨true, 7⟩

/-- A failed grab result. -/
def w_gr_fail : GrabResult := ⟨false, 0⟩

/-- A viewer with one Gain widget over gain_camera, ready for a refresh. -/
def c2_viewer : Viewer :=
  { initial_viewer gain_camera with
    interact_camera_widgets :=
      [("Gain", ⟨FeatValue.num 7, some 1, some 100, some 5, none, "Gain:", [], [], false⟩)] }

/-- A fake UserSetLoad: the device comes back with Gain at 42. -/
def c2_load (c : Camera) : Camera :=
  { c with features := [("Gain", ⟨FeatValue.num 42, 5, 100, some 1⟩)] }

/-- The viewer produced by applying forward_dep_config to a fresh viewer on
ab_camera (used to discharge hypotheses of the dependency theorems on a
concrete configuration). -/
def w_viewer : Viewer :=
  match set_configuration (initial_viewer ab_camera) forward_dep_config with
  | .ok (v, _) => v
  | .error _ => initial_viewer ab_camera

theorem dict_lookup_insert_self {α : Type} (d : List (String × α)) (k : String) (v : α) :
    dict_lookup (dict_insert d k v) k = some v := by
  induction d with
  | nil => simp [dict_insert, dict_lookup]
  | cons hd tl ih =>
      by_cases h : hd.1 = k
      · simp [dict_insert, h, dict_lookup]
      · simp [dict_insert, h, dict_lookup, ih]

theorem dict_lookup_insert_ne {α : Type} (d : List (String × α)) (k k2 : String) (v : α)
    (h : k ≠ k2) : dict_lookup (dict_insert d k v) k2 = dict_lookup d k2 := by
  induction d with
  | nil => simp [dict_insert, dict_lookup, h]
  | cons hd tl ih =>
      by_cases h1 : hd.1 = k
      · simp [dict_insert, h1, dict_lookup, h]
      · simp [dict_insert, h1, dict_lookup, ih]

theorem dict_lookup_mem {α : Type} {d : List (String × α)} {k : String} {v : α}
    (h : dict_lookup d k = some v) : (k, v) ∈ d := by
  induction d with
  | nil => simp [dict_lookup] at h
  | cons hd tl ih =>
      obtain ⟨k1, v1⟩ := hd
      by_cases h1 : k1 = k
      · simp [dict_lookup, h1] at h
        subst h1; subst h
        exact List.mem_cons_self _ _
      · simp [dict_lookup, h1] at h
        exact List.mem_cons_of_mem _ (ih h)

theorem dict_insert_mem {α : Type} {d : List (String × α)} {k : String} {v : α}
    {p : String × α} (h : p ∈ dict_insert d k v) : p ∈ d ∨ p = (k, v) := by
  induction d with
  | nil => simp [dict_insert] at h; right; exact h
  | cons hd tl ih =>
      by_cases h1 : hd.1 = k
      · simp [dict_insert, h1] at h
        rcases h with h | h
        · right; exact h
        · left; exact List.mem_cons_of_mem _ h
      · simp [dict_insert, h1] at h
        rcases h with h | h
        · left; simp [h]
        · rcases ih h with h2 | h2
          · left; exact List.mem_cons_of_mem _ h2
          · right; exact h2

theorem dict_lookup_insert_isSome_mono {α : Type} {d : List (String × α)} {k k2 : String}
    {v : α} (h : (dict_lookup d k2).isSome = true) :
    (dict_lookup (dict_insert d k v) k2).isSome = true := by
  by_cases hk : k = k2
  · subst hk; simp [dict_lookup_insert_self]
  · rwa [dict_lookup_insert_ne _ _ _ _ hk]

theorem dict_lookup_insert_isSome {α : Type} {d : List (String × α)} {k : String} {v : α}
    (hk : (dict_lookup d k).isSome = true) (k2 : String) :
    (dict_lookup (dict_insert d k v) k2).isSome = (dict_lookup d k2).isSome := by
  by_cases h : k = k2
  · subst h; simp [dict_lookup_insert_self, hk]
  · rw [dict_lookup_insert_ne _ _ _ _ h]

theorem dict_lookup_isSome_iff {α : Type} {d : List (String × α)} {k : String} :
    (dict_lookup d k).isSome = true ↔ k ∈ d.map Prod.fst := by
  induction d with
  | nil => simp [dict_lookup]
  | cons hd tl ih =>
      by_cases h : hd.1 = k
      · simp [dict_lookup, h]
      · simp [dict_lookup, h, ih, Ne.symm h]

theorem dict_insert_keys_nodup {α : Type} {d : List (String × α)} {k : String} {v : α}
    (h : (d.map Prod.fst).Nodup) : ((dict_insert d k v).map Prod.fst).Nodup := by
  induction d with
  | nil => simp [dict_insert]
  | cons hd tl ih =>
      obtain ⟨k1, v1⟩ := hd
      rw [List.map_cons, List.nodup_cons] at h
      by_cases h1 : k1 = k
      · subst h1
        simp only [dict_insert, if_pos rfl, if_true, eq_self_iff_true, List.map_cons,
          List.nodup_cons]
        exact h
      · simp only [dict_insert, if_neg h1, List.map_cons, List.nodup_cons]
        refine ⟨?_, ih h.2⟩
        intro hmem
        rw [← dict_lookup_isSome_iff, dict_lookup_insert_ne _ _ _ _ (Ne.symm h1),
            dict_lookup_isSome_iff] at hmem
        exact h.1 hmem


theorem order_rows_foldl {α : Type} (wdgts : List (String × α)) :
    ∀ (rows : List (List String)) (acc1 : List String) (acc2 : List (RowItem α)),
      rows.foldl
        (fun (acc : List String × List (RowItem α)) items_in_row =>
          if items_in_row.all (fun item => (dict_lookup wdgts item).isSome) then
            (acc.1 ++ items_in_row,
             acc.2 ++ [RowItem.hbox (items_in_row.filterMap (dict_lookup wdgts))])
          else acc)
        (acc1, acc2) =
      (acc1 ++
         (rows.filter (fun r => r.all (fun item => (dict_lookup wdgts item).isSome))).flatten,
       acc2 ++
         (rows.filter (fun r => r.all (fun item => (dict_lookup wdgts item).isSome))).map
           (fun r => RowItem.hbox (r.filterMap (dict_lookup wdgts))))
  | [], acc1, acc2 => by simp
  | r :: rest, acc1, acc2 => by
      by_cases h : r.all (fun item => (dict_lookup wdgts item).isSome) = true
      · simp only [List.foldl_cons, List.filter_cons, h, if_true, if_pos h]
        rw [order_rows_foldl wdgts rest]
        simp [List.append_assoc]
      · simp only [List.foldl_cons, List.filter_cons, h, if_false,
          Bool.false_eq_true, if_neg h]
        rw [order_rows_foldl wdgts rest]

/-- Claim C6: a layout row all of whose names are present in the control set
is rendered as one row in list order; a row containing any absent name is
dropped entirely; every control not mentioned in a rendered row is appended
after the rows as a trailing single-item row.  The embedded function equals
the declarative ordering stated by the specification, and the concrete
example rows [(A, B), (C)] over controls A, B, C, D produce
[row(A, B), row(C), D]. -/
theorem c6_row_layout :
    (∀ (α : Type) (rows : List (List String)) (wdgts : List (String × α)),
        order_widgets_to_rows rows wdgts = layout_rows_spec rows wdgts) ∧
    order_widgets_to_rows [["A", "B"], ["C"]] [("A", 1), ("B", 2), ("C", 3), ("D", 4)] =
      [RowItem.hbox [1, 2], RowItem.hbox [3], RowItem.single 4] := by
  constructor
  · intro α rows wdgts
    unfold order_widgets_to_rows layout_rows_spec
    rw [order_rows_foldl]
    simp
  · rfl

theorem single_keyloop_state (own : Bool) :
    ∀ (keys : List (Option Char)) (st : RunState) (o : RunOutcome) (st2 : RunState),
      single_keyloop own st keys = some (o, st2) →
      st2.grabbing = st.grabbing ∧ o = RunOutcome.quit
  | [], st, o, st2, h => by simp [single_keyloop] at h
  | k :: rest, st, o, st2, h => by
      rw [single_keyloop] at h
      by_cases h1 : k = some 's' ∧ own = false
      · rw [if_pos h1] at h
        have h3 := single_keyloop_state own rest _ o st2 h
        exact ⟨h3.1, h3.2⟩
      · rw [if_neg h1] at h
        by_cases h2 : k = some 'q'
        · rw [if_pos h2] at h
          simp at h
          exact ⟨by rw [h.2], h.1.symm⟩
        · rw [if_neg h2] at h
          exact single_keyloop_state own rest st o st2 h

/-- Claim C4: both capture modes release the acquisition resources on every
terminating exit path: whenever the run returns, grabbing has been stopped and
the display windows destroyed, for continuous shot (whose finally block always
runs) and for single shot (failed grab, invalid callback result, and the
normal quit exit). -/
theorem c4_release_on_exit :
    (∀ (cfg : RunCfg) (st : RunState) (inputs : List IterInput) (o : RunOutcome)
        (st2 : RunState), run_continuous_shot cfg st inputs = some (o, st2) →
        st2.grabbing = false ∧ st2.windowOpen = false) ∧
    (∀ (cfg : RunCfg) (st : RunState) (gr : GrabResult) (keys : List (Option Char))
        (o : RunOutcome) (st2 : RunState), run_single_shot cfg st gr keys = some (o, st2) →
        st2.grabbing = false ∧ st2.windowOpen = false) := by
  constructor
  · intro cfg st inputs o st2 h
    simp only [run_continuous_shot] at h
    split at h
    · exact absurd h (by simp)
    · simp at h
      rw [← h.2]
      exact ⟨rfl, rfl⟩
  · intro cfg st gr keys o st2 h
    simp only [run_single_shot] at h
    by_cases hg : gr.succeeded = false
    · rw [if_pos hg] at h
      simp at h
      rw [← h.2]
      by_cases hw : cfg.impro_own_window <;> simp [hw]
    · rw [if_neg hg] at h
      cases hd : dispatch_frame cfg gr.image with
      | none =>
          simp only [hd] at h
          simp at h
          rw [← h.2]
          by_cases hw : cfg.impro_own_window <;> simp [hw]
      | some img =>
          simp only [hd] at h
          split at h
          · exact absurd h (by simp)
          · rename_i o2 st4 hk
            simp at h
            have h5 := (single_keyloop_state cfg.impro_own_window keys _ o2 st4 hk).1
            rw [← h.2]
            refine ⟨?_, rfl⟩
            show st4.grabbing = false
            rw [h5]
            by_cases hw : cfg.impro_own_window <;> simp [hw]

theorem c4_witness :
    run_continuous_shot w_cfg_plain w_st [w_iter_q] =
        some (RunOutcome.quit, ⟨false, false, "", 0⟩) ∧
    ((false = false ∧ false = false) ∧ (false = false ∧ false = false)) :=
  ⟨rfl,
   c4_release_on_exit.1 w_cfg_plain w_st [w_iter_q] RunOutcome.quit ⟨false, false, "", 0⟩ rfl,
   c4_release_on_exit.2 w_cfg_plain w_st w_gr_fail [] RunOutcome.quit
     ⟨false, false, "Status: The single shot action has failed.", 0⟩ rfl⟩

theorem dispatch_frame_own (cfg : RunCfg) (hw : cfg.impro_own_window = true) (img : Nat) :
    dispatch_frame cfg img = some img := by
  unfold dispatch_frame
  rw [if_pos hw]
  cases cfg.impro_function <;> rfl

theorem continuous_loop_own_window (cfg : RunCfg) (hw : cfg.impro_own_window = true) :
    ∀ (inputs : List IterInput) (st : RunState) (o : RunOutcome) (st2 : RunState),
      continuous_loop cfg st inputs = some (o, st2) → o ≠ RunOutcome.errInvalidCallback
  | [], st, o, st2, h => by
      rw [continuous_loop] at h
      by_cases hg : st.grabbing
      · rw [if_pos hg] at h; exact absurd h (by simp)
      · rw [if_neg hg] at h; simp at h; rw [← h.1]; simp
  | it :: rest, st, o, st2, h => by
      rw [continuous_loop] at h
      by_cases hg : st.grabbing
      · rw [if_pos hg] at h
        cases hr : it.retrieve with
        | none => simp only [hr] at h; simp at h; rw [← h.1]; simp
        | some gr =>
            simp only [hr] at h
            by_cases hs : gr.succeeded
            · rw [if_pos hs] at h
              rw [dispatch_frame_own cfg hw] at h
              by_cases h1 : it.key = some 's' ∧ cfg.impro_own_window = false
              · rw [if_pos h1] at h
                exact continuous_loop_own_window cfg hw rest _ o st2 h
              · rw [if_neg h1] at h
                by_cases h2 : it.key = some 'q'
                · rw [if_pos h2] at h; simp at h; rw [← h.1]; simp
                · rw [if_neg h2] at h
                  exact continuous_loop_own_window cfg hw rest st o st2 h
            · rw [if_neg hs] at h
              exact continuous_loop_own_window cfg hw rest st o st2 h
      · rw [if_neg hg] at h; simp at h; rw [← h.1]; simp

/-- Claim C8: with a callback set and the driver owning the display surface, a
callback invocation that does not return an array terminates the capture
immediately with the ValueError, destroying the windows first (and, for the
continuous loop, the finally block also stops grabbing); with a callback that
owns its own display surface, the invalid-callback error can never arise, so
no return value is required of the callback. -/
theorem c8_invalid_callback :
    (∀ (cfg : RunCfg) (st : RunState) (it : IterInput) (rest : List IterInput)
        (gr : GrabResult) (f : Nat → CbResult),
        cfg.impro_own_window = false → cfg.impro_function = some f →
        st.grabbing = true → it.retrieve = some gr → gr.succeeded = true →
        f gr.image = CbResult.other →
        continuous_loop cfg st (it :: rest) =
          some (RunOutcome.errInvalidCallback, { st with windowOpen := false })) ∧
    (∀ (cfg : RunCfg) (st : RunState) (gr : GrabResult) (keys : List (Option Char))
        (f : Nat → CbResult),
        cfg.impro_own_window = false → cfg.impro_function = some f →
        gr.succeeded = true → f gr.image = CbResult.other →
        run_single_shot cfg st gr keys =
          some (RunOutcome.errInvalidCallback,
            { st with grabbing := false, windowOpen := false,
                      status := "Status: The single shot was successfully grabbed." })) ∧
    (∀ (cfg : RunCfg) (st : RunState) (inputs : List IterInput) (o : RunOutcome)
        (st2 : RunState), cfg.impro_own_window = true →
        run_continuous_shot cfg st inputs = some (o, st2) →
        o ≠ RunOutcome.errInvalidCallback) ∧
    (∀ (cfg : RunCfg) (st : RunState) (gr : GrabResult) (keys : List (Option Char))
        (o : RunOutcome) (st2 : RunState), cfg.impro_own_window = true →
        run_single_shot cfg st gr keys = some (o, st2) →
        o ≠ RunOutcome.errInvalidCallback) := by
  refine ⟨?_, ?_, ?_, ?_⟩
  · intro cfg st it rest gr f hw hf hg hr hs hres
    rw [continuous_loop, if_pos hg]
    simp only [hr]
    rw [if_pos hs]
    have hd : dispatch_frame cfg gr.image = none := by
      simp [dispatch_frame, hw, hf, hres]
    rw [hd]
  · intro cfg st gr keys f hw hf hs hres
    have hd : dispatch_frame cfg gr.image = none := by
      simp [dispatch_frame, hw, hf, hres]
    simp only [run_single_shot, hw, hs, hd]
    simp
  · intro cfg st inputs o st2 hw h
    simp only [run_continuous_shot] at h
    split at h
    · exact absurd h (by simp)
    · rename_i o2 st4 hb
      simp at h
      rw [← h.1]
      exact continuous_loop_own_window cfg hw inputs _ o2 st4 hb
  · intro cfg st gr keys o st2 hw h
    simp only [run_single_shot] at h
    by_cases hg : gr.succeeded = false
    · rw [if_pos hg] at h
      simp at h
      rw [← h.1]
      simp
    · rw [if_neg hg] at h
      cases hd : dispatch_frame cfg gr.image with
      | none =>
          rw [dispatch_frame_own cfg hw] at hd
          exact absurd hd (by simp)
      | some img =>
          simp only [hd] at h
          split at h
          · exact absurd h (by simp)
          · rename_i o2 st4 hk
            simp at h
            rw [← h.1]
            rw [(single_keyloop_state cfg.impro_own_window keys _ o2 st4 hk).2]
            simp

theorem c8_witness :
    run_single_shot w_cfg_bad w_st w_gr_ok [] =
      some (RunOutcome.errInvalidCallback,
        { w_st with grabbing := false, windowOpen := false,
                    status := "Status: The single shot was successfully grabbed." }) :=
  c8_invalid_callback.2.1 w_cfg_bad w_st w_gr_ok [] (fun _ => CbResult.other)
    rfl rfl rfl rfl

/-- Claim C9: in single-shot mode a grab that does not succeed is reported
through the status control and the run returns normally (outcome quit, not an
error outcome), with the windows destroyed; the timeout is not propagated as
an exception. -/
theorem c9_single_shot_timeout :
    ∀ (cfg : RunCfg) (st : RunState) (gr : GrabResult) (keys : List (Option Char)),
      gr.succeeded = false →
      run_single_shot cfg st gr keys =
        some (RunOutcome.quit,
          { st with grabbing := false, windowOpen := false,
                    status := "Status: The single shot action has failed." }) := by
  intro cfg st gr keys hg
  simp only [run_single_shot, hg]
  by_cases hw : cfg.impro_own_window <;> simp [hw]

theorem c9_witness :
    w_gr_fail.succeeded = false ∧
    run_single_shot w_cfg_plain w_st w_gr_fail [] =
      some (RunOutcome.quit,
        { w_st with grabbing := false, windowOpen := false,
                    status := "Status: The single shot action has failed." }) :=
  ⟨rfl, c9_single_shot_timeout w_cfg_plain w_st w_gr_fail [] rfl⟩

/-- Claim C1: the clamp-down invariant holds for max (a supplied max of 200
above the device max 100 resolves to 100) but fails for min: with the
device-reported min 5, a supplied, less restrictive min of 3 resolves to 3
instead of being clamped to the device min 5, because the min branch keeps
the supplied bound whenever it is less than or equal to the device bound
(the comparison is inverted relative to the clamping intent shown by the max
branch). -/
theorem c1_min_bound_not_clamped :
    resolved_max gain_camera gain_max_feature "Gain" = some (some 100) ∧
    gain_pf.maxValue = 100 ∧
    resolved_min gain_camera gain_min_feature "Gain" = some (some 3) ∧
    gain_pf.minValue = 5 ∧ (3 : Int) < 5 :=
  ⟨rfl, rfl, rfl, rfl, by decide⟩

/-- Claim C5: a choice descriptor whose effective value (explicit, or read
from the device when absent) is not in its non-empty options list is
interpreted without error: a warning is recorded and the resolved widget
value is the first option. -/
theorem c5_choice_fallback :
    ∀ (camera : Camera) (feature : Feature) (st : IState) (n : String)
      (pf : PylonFeature) (o0 : FeatValue) (os : List FeatValue),
      feature.name = some n →
      feature.type = some "choice_text" →
      dict_lookup camera.features n = some pf →
      feature.options = some (o0 :: os) →
      (o0 :: os).contains (feature.value.getD pf.value) = false →
      ∃ st2, process_feature camera feature st = .ok st2 ∧
        (dict_lookup st2.widgets n).map Widget.value = some o0 ∧
        st2.warns = st.warns ++
          [ConfigWarning.valueNotInOptions n (feature.value.getD pf.value)] := by
  intro camera feature st n pf o0 os hname htype hlook hopts hcont
  have hbr : branch_for camera feature n "choice_text" =
      .ok (⟨o0, none, none, none, some (o0 :: os)⟩,
           [ConfigWarning.valueNotInOptions n (feature.value.getD pf.value)]) := by
    unfold branch_for
    rw [if_neg (by decide : ¬ (numeric_types.contains "choice_text" = true))]
    rw [if_neg (by decide : ¬ ("choice_text" = "bool"))]
    rw [if_pos (rfl : "choice_text" = "choice_text")]
    simp only [hlook, hopts]
    rw [if_neg (by rw [hcont]; simp)]
  unfold process_feature
  simp only [hname, htype]
  have hmem : WIDGET_TYPES.contains "choice_text" = true := by decide
  rw [if_pos hmem]
  simp only [hbr]
  refine ⟨_, rfl, ?_, rfl⟩
  rw [dict_lookup_insert_self]
  rfl

theorem c5_witness :
    ∃ st2, process_feature mode_camera mode_feature ⟨[], [], []⟩ = Except.ok st2 ∧
      (dict_lookup st2.widgets "TriggerMode").map Widget.value =
        some (FeatValue.str "On") ∧
      st2.warns = [ConfigWarning.valueNotInOptions "TriggerMode" (FeatValue.str "X")] :=
  c5_choice_fallback mode_camera mode_feature ⟨[], [], []⟩ "TriggerMode"
    ⟨FeatValue.str "X", 0, 0, none⟩ (FeatValue.str "On") [FeatValue.str "Off"]
    rfl rfl rfl rfl (by decide)

theorem preserves_refl (v : Viewer) : preserves v v :=
  ⟨rfl, rfl, rfl, rfl, fun _ => rfl, fun _ => rfl⟩

theorem preserves_trans {v1 v2 v3 : Viewer} (h1 : preserves v1 v2) (h2 : preserves v2 v3) :
    preserves v1 v3 :=
  ⟨h2.1.trans h1.1, h2.2.1.trans h1.2.1, h2.2.2.1.trans h1.2.2.1,
   h2.2.2.2.1.trans h1.2.2.2.1,
   fun n => (h2.2.2.2.2.1 n).trans (h1.2.2.2.2.1 n),
   fun n => (h2.2.2.2.2.2 n).trans (h1.2.2.2.2.2 n)⟩

theorem sdd_preserves (nv : FeatValue) :
    ∀ (es : List (String × FeatValue)) (v v2 : Viewer),
      set_dependent_disabled nv es v = .ok v2 → preserves v v2
  | [], v, v2, h => by
      simp only [set_dependent_disabled] at h
      cases h
      exact preserves_refl v
  | (feat, cond) :: rest, v, v2, h => by
      rw [set_dependent_disabled] at h
      cases hl : dict_lookup v.interact_camera_widgets feat with
      | none => simp only [hl] at h; simp at h
      | some w =>
          simp only [hl] at h
          have ih := sdd_preserves nv rest _ v2 h
          refine preserves_trans ?_ ih
          refine ⟨rfl, rfl, rfl, rfl, ?_, ?_⟩
          · intro n
            exact dict_lookup_insert_isSome (by simp [hl]) n
          · intro n
            by_cases hn : feat = n
            · subst hn
              rw [dict_lookup_insert_self, hl]
              rfl
            · rw [dict_lookup_insert_ne _ _ _ _ hn]

theorem sdd_untouched (nv : FeatValue) :
    ∀ (es : List (String × FeatValue)) (v v2 : Viewer),
      set_dependent_disabled nv es v = .ok v2 →
      ∀ n, (∀ r, (n, r) ∉ es) →
      dict_lookup v2.interact_camera_widgets n = dict_lookup v.interact_camera_widgets n
  | [], v, v2, h, n, _ => by
      simp only [set_dependent_disabled] at h
      cases h
      rfl
  | (feat, cond) :: rest, v, v2, h, n, hnot => by
      rw [set_dependent_disabled] at h
      cases hl : dict_lookup v.interact_camera_widgets feat with
      | none => simp only [hl] at h; simp at h
      | some w =>
          simp only [hl] at h
          have hne : feat ≠ n := by
            intro he
            subst he
            exact hnot cond (List.mem_cons_self _ _)
          have ih := sdd_untouched nv rest _ v2 h n
            (fun r hr => hnot r (List.mem_cons_of_mem _ hr))
          rw [ih]
          exact dict_lookup_insert_ne _ _ _ _ hne

theorem sdd_sets (nv : FeatValue) :
    ∀ (es : List (String × FeatValue)) (v v2 : Viewer),
      set_dependent_disabled nv es v = .ok v2 →
      ∀ (d : String) (r : FeatValue), (es.map Prod.fst).Nodup → (d, r) ∈ es →
      (dict_lookup v2.interact_camera_widgets d).map Widget.disabled =
        some (decide (nv ≠ r))
  | [], v, v2, h, d, r, _, hmem => by simp at hmem
  | (feat, cond) :: rest, v, v2, h, d, r, hnodup, hmem => by
      rw [set_dependent_disabled] at h
      cases hl : dict_lookup v.interact_camera_widgets feat with
      | none => simp only [hl] at h; simp at h
      | some w =>
          simp only [hl] at h
          rw [List.map_cons, List.nodup_cons] at hnodup
          rcases List.mem_cons.mp hmem with heq | hmem2
          · have hd : d = feat := congrArg Prod.fst heq
            have hr : r = cond := congrArg Prod.snd heq
            subst hd; subst hr
            have hnot : ∀ r2, (d, r2) ∉ rest := by
              intro r2 hr2
              exact hnodup.1 (List.mem_map.mpr ⟨(d, r2), hr2, rfl⟩)
            rw [sdd_untouched nv rest _ v2 h d hnot]
            rw [dict_lookup_insert_self]
            rfl
          · exact sdd_sets nv rest _ v2 h d r hnodup.2 hmem2

theorem sdd_ok (nv : FeatValue) :
    ∀ (es : List (String × FeatValue)) (v : Viewer),
      (∀ q ∈ es, (dict_lookup v.interact_camera_widgets q.1).isSome = true) →
      ∃ v2, set_dependent_disabled nv es v = .ok v2
  | [], v, _ => ⟨v, rfl⟩
  | (feat, cond) :: rest, v, hall => by
      have hfeat := hall (feat, cond) (List.mem_cons_self _ _)
      cases hl : dict_lookup v.interact_camera_widgets feat with
      | none => rw [hl] at hfeat; simp at hfeat
      | some w =>
          rw [set_dependent_disabled]
          simp only [hl]
          refine sdd_ok nv rest _ ?_
          intro q hq
          rw [dict_lookup_insert_isSome (by simp [hl])]
          exact hall q (List.mem_cons_of_mem _ hq)

theorem eh_cases {v v1 : Viewer} {t : String} {nv : FeatValue}
    (h : event_handler_for_dependencies v t nv = .ok v1) :
    ∃ es, dict_lookup v.dependecies t = some es ∧
      set_dependent_disabled nv es v = .ok v1 := by
  unfold event_handler_for_dependencies at h
  cases hd : dict_lookup v.dependecies t with
  | none => simp only [hd] at h; simp at h
  | some es => simp only [hd] at h; exact ⟨es, rfl, h⟩

theorem register_preserves :
    ∀ (ks : List String) (v v2 : Viewer),
      register_deps v ks = .ok v2 → preserves v v2
  | [], v, v2, h => by
      simp only [register_deps] at h
      cases h
      exact preserves_refl v
  | k :: rest, v, v2, h => by
      rw [register_deps] at h
      cases hl : dict_lookup v.interact_camera_widgets k with
      | none => simp only [hl] at h; simp at h
      | some w =>
          simp only [hl] at h
          cases he : event_handler_for_dependencies v k w.value with
          | error e => simp only [he] at h; simp at h
          | ok v1 =>
              simp only [he] at h
              obtain ⟨es, _, hsdd⟩ := eh_cases he
              exact preserves_trans (sdd_preserves _ es v v1 hsdd)
                (register_preserves rest v1 v2 h)

theorem register_untouched :
    ∀ (ks : List String) (v v2 : Viewer),
      register_deps v ks = .ok v2 →
      ∀ d, (∀ k ∈ ks, ∀ es, dict_lookup v.dependecies k = some es →
              ∀ r, (d, r) ∉ es) →
      dict_lookup v2.interact_camera_widgets d = dict_lookup v.interact_camera_widgets d
  | [], v, v2, h, d, _ => by
      simp only [register_deps] at h
      cases h
      rfl
  | k :: rest, v, v2, h, d, hnot => by
      rw [register_deps] at h
      cases hl : dict_lookup v.interact_camera_widgets k with
      | none => simp only [hl] at h; simp at h
      | some w =>
          simp only [hl] at h
          cases he : event_handler_for_dependencies v k w.value with
          | error e => simp only [he] at h; simp at h
          | ok v1 =>
              simp only [he] at h
              obtain ⟨es, hd2, hsdd⟩ := eh_cases he
              have hpres := sdd_preserves _ es v v1 hsdd
              have ih := register_untouched rest v1 v2 h d ?hnot2
              case hnot2 =>
                intro k2 hk2 es2 hlk2 r hr
                rw [hpres.2.1] at hlk2
                exact hnot k2 (List.mem_cons_of_mem _ hk2) es2 hlk2 r hr
              rw [ih]
              exact sdd_untouched _ es v v1 hsdd d
                (fun r hr => hnot k (List.mem_cons_self _ _) es hd2 r hr)

theorem register_triggers_present :
    ∀ (ks : List String) (v v2 : Viewer),
      register_deps v ks = .ok v2 →
      ∀ k ∈ ks, (dict_lookup v2.interact_camera_widgets k).isSome = true
  | [], v, v2, h, k, hk => by simp at hk
  | k0 :: rest, v, v2, h, k, hk => by
      rw [register_deps] at h
      cases hl : dict_lookup v.interact_camera_widgets k0 with
      | none => simp only [hl] at h; simp at h
      | some w =>
          simp only [hl] at h
          cases he : event_handler_for_dependencies v k0 w.value with
          | error e => simp only [he] at h; simp at h
          | ok v1 =>
              simp only [he] at h
              obtain ⟨es, _, hsdd⟩ := eh_cases he
              rcases List.mem_cons.mp hk with heq | hmem
              · subst heq
                have hpres := preserves_trans (sdd_preserves _ es v v1 hsdd)
                  (register_preserves rest v1 v2 h)
                rw [hpres.2.2.2.2.1 k, hl]
                rfl
              · exact register_triggers_present rest v1 v2 h k hmem

theorem register_main :
    ∀ (ks : List String) (v v2 : Viewer),
      register_deps v ks = .ok v2 → ks.Nodup →
      ∀ (t : String) (es : List (String × FeatValue)) (d : String) (r : FeatValue),
        t ∈ ks → dict_lookup v.dependecies t = some es →
        (es.map Prod.fst).Nodup → (d, r) ∈ es →
        (∀ t2 ∈ ks, ∀ es2, dict_lookup v.dependecies t2 = some es2 →
            ∀ r2, (d, r2) ∈ es2 → t2 = t ∧ r2 = r) →
        ∃ wtv, (dict_lookup v.interact_camera_widgets t).map Widget.value = some wtv ∧
          (dict_lookup v2.interact_camera_widgets d).map Widget.disabled =
            some (decide (wtv ≠ r))
  | [], v, v2, h, _, t, es, d, r, htk, _, _, _, _ => by simp at htk
  | k0 :: rest, v, v2, h, hnodup, t, es, d, r, htk, hles, hnes, hmem, huniq => by
      rw [register_deps] at h
      cases hl : dict_lookup v.interact_camera_widgets k0 with
      | none => simp only [hl] at h; simp at h
      | some w =>
          simp only [hl] at h
          cases he : event_handler_for_dependencies v k0 w.value with
          | error e => simp only [he] at h; simp at h
          | ok v1 =>
              simp only [he] at h
              obtain ⟨es0, hd0, hsdd⟩ := eh_cases he
              have hpres1 := sdd_preserves _ es0 v v1 hsdd
              rw [List.nodup_cons] at hnodup
              by_cases hteq : t = k0
              · subst hteq
                have hes0 : es0 = es := by
                  rw [hd0] at hles
                  exact Option.some.inj hles
                subst hes0
                have hset := sdd_sets _ es0 v v1 hsdd d r hnes hmem
                have hnot2 : ∀ k2 ∈ rest, ∀ es2,
                    dict_lookup v1.dependecies k2 = some es2 →
                    ∀ r2, (d, r2) ∉ es2 := by
                  intro k2 hk2 es2 hlk2 r2 hr2
                  rw [hpres1.2.1] at hlk2
                  have := huniq k2 (List.mem_cons_of_mem _ hk2) es2 hlk2 r2 hr2
                  exact hnodup.1 (this.1 ▸ hk2)
                rw [register_untouched rest v1 v2 h d hnot2] at *
                refine ⟨w.value, by rw [hl]; rfl, ?_⟩
                rw [← hset]
              · have htk2 : t ∈ rest := by
                  rcases List.mem_cons.mp htk with he2 | hm
                  · exact absurd he2 hteq
                  · exact hm
                have huniq2 : ∀ t2 ∈ rest, ∀ es2,
                    dict_lookup v1.dependecies t2 = some es2 →
                    ∀ r2, (d, r2) ∈ es2 → t2 = t ∧ r2 = r := by
                  intro t2 ht2 es2 hlk2 r2 hr2
                  rw [hpres1.2.1] at hlk2
                  exact huniq t2 (List.mem_cons_of_mem _ ht2) es2 hlk2 r2 hr2
                have hles1 : dict_lookup v1.dependecies t = some es := by
                  rw [hpres1.2.1]; exact hles
                obtain ⟨wtv, hwtv, hconc⟩ :=
                  register_main rest v1 v2 h hnodup.2 t es d r htk2 hles1 hnes hmem huniq2
                refine ⟨wtv, ?_, hconc⟩
                rw [← hwtv]
                exact (hpres1.2.2.2.2.2 t).symm

theorem register_dependency_mem (fname : String) :
    ∀ (dl : List (String × FeatValue)) (ds : List (String × List (String × FeatValue)))
      (t : String) (es : List (String × FeatValue)),
      (t, es) ∈ register_dependency fname dl ds →
      ∀ (d : String) (r : FeatValue), (d, r) ∈ es →
        (∃ es0, (t, es0) ∈ ds ∧ (d, r) ∈ es0) ∨ d = fname
  | [], ds, t, es, hmem, d, r, hdr => Or.inl ⟨es, hmem, hdr⟩
  | fc :: dl, ds, t, es, hmem, d, r, hdr => by
      simp only [register_dependency, List.foldl_cons] at hmem
      have ih := register_dependency_mem fname dl
        (dict_insert ds fc.1 (dict_insert ((dict_lookup ds fc.1).getD []) fname fc.2))
        t es hmem d r hdr
      rcases ih with ⟨es0, hmem0, hdr0⟩ | heq
      · rcases dict_insert_mem hmem0 with hm | he
        · exact Or.inl ⟨es0, hm, hdr0⟩
        · have ht : t = fc.1 := congrArg Prod.fst he
          have hes : es0 = dict_insert ((dict_lookup ds fc.1).getD []) fname fc.2 :=
            congrArg Prod.snd he
          rw [hes] at hdr0
          rcases dict_insert_mem hdr0 with hm2 | he2
          · cases hl : dict_lookup ds fc.1 with
            | none => rw [hl] at hm2; simp at hm2
            | some cur0 =>
                rw [hl] at hm2
                simp only [Option.getD_some] at hm2
                refine Or.inl ⟨cur0, ?_, hm2⟩
                rw [ht]
                exact dict_lookup_mem hl
          · exact Or.inr (congrArg Prod.fst he2)
      · exact Or.inr heq

theorem register_dependency_nodup (fname : String) :
    ∀ (dl : List (String × FeatValue)) (ds : List (String × List (String × FeatValue))),
      (ds.map Prod.fst).Nodup → (∀ p ∈ ds, (p.2.map Prod.fst).Nodup) →
      ((register_dependency fname dl ds).map Prod.fst).Nodup ∧
        ∀ p ∈ register_dependency fname dl ds, (p.2.map Prod.fst).Nodup
  | [], ds, h1, h2 => ⟨h1, h2⟩
  | fc :: dl, ds, h1, h2 => by
      simp only [register_dependency, List.foldl_cons]
      have hins1 := @dict_insert_keys_nodup _ ds fc.1
        (dict_insert ((dict_lookup ds fc.1).getD []) fname fc.2) h1
      have hins2 : ∀ p ∈ dict_insert ds fc.1
          (dict_insert ((dict_lookup ds fc.1).getD []) fname fc.2),
          (p.2.map Prod.fst).Nodup := by
        intro p hp
        rcases dict_insert_mem hp with hm | he
        · exact h2 p hm
        · rw [he]
          apply dict_insert_keys_nodup
          cases hl : dict_lookup ds fc.1 with
          | none => simp
          | some cur0 =>
              simp only [Option.getD_some]
              exact h2 (fc.1, cur0) (dict_lookup_mem hl)
      exact register_dependency_nodup fname dl _ hins1 hins2

theorem process_feature_ok {camera : Camera} {feature : Feature} {st st2 : IState}
    (h : process_feature camera feature st = .ok st2) :
    ∃ n w, feature.name = some n ∧
      st2.widgets = dict_insert st.widgets n w ∧
      (st2.deps = st.deps ∨
        ∃ dl, feature.dependency = some dl ∧
          st2.deps = register_dependency n dl st.deps) := by
  unfold process_feature at h
  cases hn : feature.name with
  | none => simp only [hn] at h; simp at h
  | some n =>
      simp only [hn] at h
      cases ht : feature.type with
      | none => simp only [ht] at h; simp at h
      | some tn =>
          simp only [ht] at h
          by_cases hg : WIDGET_TYPES.contains tn = true
          · rw [if_pos hg] at h
            cases hb : branch_for camera feature n tn with
            | error e => simp only [hb] at h; simp at h
            | ok p =>
                obtain ⟨kw, ws⟩ := p
                simp only [hb] at h
                simp only [Except.ok.injEq] at h
                subst h
                refine ⟨n, _, rfl, rfl, ?_⟩
                cases hd : feature.dependency with
                | none => exact Or.inl (by simp only [hd])
                | some dl => exact Or.inr ⟨dl, rfl, by simp only [hd]⟩
          · rw [if_neg hg] at h
            simp at h

theorem process_feature_nested {camera : Camera} {feature : Feature} {st st2 : IState}
    (h : process_feature camera feature st = .ok st2) (hinv : nested_ok st) :
    nested_ok st2 := by
  obtain ⟨n, w, _, hw, hdeps⟩ := process_feature_ok h
  intro p hp q hq
  rw [hw]
  rcases hdeps with hdeps | ⟨dl, _, hdeps⟩
  · rw [hdeps] at hp
    exact dict_lookup_insert_isSome_mono (hinv p hp q hq)
  · rw [hdeps] at hp
    rcases register_dependency_mem n dl st.deps p.1 p.2 hp q.1 q.2 hq with ⟨es0, hm, hq0⟩ | heq
    · exact dict_lookup_insert_isSome_mono (hinv (p.1, es0) hm (q.1, q.2) hq0)
    · rw [heq, dict_lookup_insert_self]
      rfl

theorem process_feature_nodup {camera : Camera} {feature : Feature} {st st2 : IState}
    (h : process_feature camera feature st = .ok st2) (hinv : deps_keys_nodup st) :
    deps_keys_nodup st2 := by
  obtain ⟨n, w, _, _, hdeps⟩ := process_feature_ok h
  rcases hdeps with hdeps | ⟨dl, _, hdeps⟩
  · exact ⟨hdeps ▸ hinv.1, hdeps ▸ hinv.2⟩
  · have := register_dependency_nodup n dl st.deps hinv.1 hinv.2
    exact ⟨hdeps ▸ this.1, hdeps ▸ this.2⟩

theorem process_features_nested {camera : Camera} :
    ∀ (fs : List Feature) (st st2 : IState),
      process_features camera fs st = .ok st2 → nested_ok st → nested_ok st2
  | [], st, st2, h, hinv => by
      simp only [process_features] at h
      cases h
      exact hinv
  | f :: fs, st, st2, h, hinv => by
      rw [process_features] at h
      cases hp : process_feature camera f st with
      | error e => simp only [hp] at h; simp at h
      | ok st1 =>
          simp only [hp] at h
          exact process_features_nested fs st1 st2 h (process_feature_nested hp hinv)

theorem process_features_nodup {camera : Camera} :
    ∀ (fs : List Feature) (st st2 : IState),
      process_features camera fs st = .ok st2 → deps_keys_nodup st → deps_keys_nodup st2
  | [], st, st2, h, hinv => by
      simp only [process_features] at h
      cases h
      exact hinv
  | f :: fs, st, st2, h, hinv => by
      rw [process_features] at h
      cases hp : process_feature camera f st with
      | error e => simp only [hp] at h; simp at h
      | ok st1 =>
          simp only [hp] at h
          exact process_features_nodup fs st1 st2 h (process_feature_nodup hp hinv)

theorem set_configuration_ok {v : Viewer} {cfg : Config} {v4 : Viewer}
    {ws : List ConfigWarning} (h : set_configuration v cfg = .ok (v4, ws)) :
    ∃ st v3, register_deps v3 (st.deps.map Prod.fst) = .ok v4 ∧
      v3.dependecies = st.deps ∧ v3.interact_camera_widgets = st.widgets ∧
      nested_ok st ∧ deps_keys_nodup st := by
  unfold set_configuration at h
  cases hf : cfg.features with
  | none =>
      simp only [hf] at h
      split at h
      · simp at h
      · rename_i v4x hreg
        simp only [Except.ok.injEq, Prod.mk.injEq] at h
        rw [h.1] at hreg
        exact ⟨⟨[], [], [ConfigWarning.missingFeatures]⟩, _, hreg, rfl, rfl,
          by intro p hp; simp at hp,
          ⟨by simp, by intro p hp; simp at hp⟩⟩
  | some fs =>
      simp only [hf] at h
      cases hpf : process_features v.camera fs ⟨[], [], []⟩ with
      | error e => simp only [hpf] at h; simp at h
      | ok st =>
          simp only [hpf] at h
          split at h
          · simp at h
          · rename_i v4x hreg
            simp only [Except.ok.injEq, Prod.mk.injEq] at h
            rw [h.1] at hreg
            exact ⟨st, _, hreg, rfl, rfl,
              process_features_nested fs _ st hpf (by intro p hp; simp at hp),
              process_features_nodup fs _ st hpf
                ⟨by simp, by intro p hp; simp at hp⟩⟩

/-- Claim C7: when configuration interpretation succeeds, every dependency
key and every nested dependency key names a control present in the final
control set (so a dangling key makes interpretation fail), and the key check
runs after all descriptors are processed: a configuration whose first
descriptor references a later descriptor through a dependency succeeds. -/
theorem c7_dependency_validation :
    (∀ (v : Viewer) (cfg : Config) (vf : Viewer) (ws : List ConfigWarning),
        set_configuration v cfg = .ok (vf, ws) →
        ∀ t es, (t, es) ∈ vf.dependecies →
          (dict_lookup vf.interact_camera_widgets t).isSome = true ∧
          ∀ d r, (d, r) ∈ es →
            (dict_lookup vf.interact_camera_widgets d).isSome = true) ∧
    (∃ res, set_configuration (initial_viewer ab_camera) forward_dep_config = .ok res) := by
  constructor
  · intro v cfg vf ws h t es hmem
    obtain ⟨st, v3, hreg, hdep3, hwid3, hnested, _⟩ := set_configuration_ok h
    have hpres := register_preserves _ v3 vf hreg
    have hdepsf : vf.dependecies = st.deps := by rw [hpres.2.1, hdep3]
    rw [hdepsf] at hmem
    constructor
    · have htk : t ∈ st.deps.map Prod.fst := List.mem_map.mpr ⟨(t, es), hmem, rfl⟩
      exact register_triggers_present _ v3 vf hreg t htk
    · intro d r hdr
      rw [hpres.2.2.2.2.1 d, hwid3]
      exact hnested (t, es) hmem (d, r) hdr
  · exact ⟨_, rfl⟩

theorem c7_witness :
    (dict_lookup w_viewer.interact_camera_widgets "B").isSome = true ∧
    (dict_lookup w_viewer.interact_camera_widgets "A").isSome = true :=
  ⟨(c7_dependency_validation.1 (initial_viewer ab_camera) forward_dep_config w_viewer []
      rfl "B" [("A", FeatValue.num 2)] (by decide)).1,
   (c7_dependency_validation.1 (initial_viewer ab_camera) forward_dep_config w_viewer []
      rfl "B" [("A", FeatValue.num 2)] (by decide)).2 "A" (FeatValue.num 2) (by decide)⟩

/-- Claim C3: on a value-change event of a controlling control, the handler
sets each registered dependent disabled flag to (new value is different from
the required value), that is, enabled exactly when the new value equals the
required value; and after a successful set_configuration, whose registration
loop fires the handler once synthetically with the controlling widget current
value, every dependent controlled by a single trigger already has its
disabled flag consistent with that trigger current value, with no user
interaction. -/
theorem c3_dependency_propagation :
    (∀ (v v2 : Viewer) (t : String) (nv : FeatValue) (es : List (String × FeatValue))
        (d : String) (r : FeatValue),
        dict_lookup v.dependecies t = some es → (es.map Prod.fst).Nodup → (d, r) ∈ es →
        event_handler_for_dependencies v t nv = .ok v2 →
        (dict_lookup v2.interact_camera_widgets d).map Widget.disabled =
          some (decide (nv ≠ r))) ∧
    (∀ (v : Viewer) (cfg : Config) (vf : Viewer) (ws : List ConfigWarning)
        (t : String) (es : List (String × FeatValue)) (d : String) (r : FeatValue),
        set_configuration v cfg = .ok (vf, ws) →
        dict_lookup vf.dependecies t = some es → (d, r) ∈ es →
        (∀ p ∈ vf.dependecies, ∀ q ∈ p.2, q.1 = d → p.1 = t ∧ q.2 = r) →
        ∃ wt wd, dict_lookup vf.interact_camera_widgets t = some wt ∧
          dict_lookup vf.interact_camera_widgets d = some wd ∧
          wd.disabled = decide (wt.value ≠ r)) := by
  constructor
  · intro v v2 t nv es d r hles hnes hmem h
    obtain ⟨es2, hles2, hsdd⟩ := eh_cases h
    rw [hles] at hles2
    have : es = es2 := Option.some.inj hles2
    subst this
    exact sdd_sets nv es v v2 hsdd d r hnes hmem
  · intro v cfg vf ws t es d r h hles hmem huniq
    obtain ⟨st, v3, hreg, hdep3, hwid3, _, hnodup⟩ := set_configuration_ok h
    have hpres := register_preserves _ v3 vf hreg
    have hles3 : dict_lookup v3.dependecies t = some es := by
      rw [← hpres.2.1]
      exact hles
    have hmemdeps : (t, es) ∈ st.deps := by
      rw [← hdep3]
      exact dict_lookup_mem hles3
    have hks : t ∈ st.deps.map Prod.fst := List.mem_map.mpr ⟨(t, es), hmemdeps, rfl⟩
    have hnes : (es.map Prod.fst).Nodup := hnodup.2 (t, es) hmemdeps
    have huniq2 : ∀ t2 ∈ st.deps.map Prod.fst, ∀ es2,
        dict_lookup v3.dependecies t2 = some es2 →
        ∀ r2, (d, r2) ∈ es2 → t2 = t ∧ r2 = r := by
      intro t2 _ es2 hlk r2 hr2
      have hmem2 : (t2, es2) ∈ vf.dependecies := by
        rw [hpres.2.1]
        exact dict_lookup_mem hlk
      exact huniq (t2, es2) hmem2 (d, r2) hr2 rfl
    obtain ⟨wtv, hwtv, hdis⟩ := register_main (st.deps.map Prod.fst) v3 vf hreg
      hnodup.1 t es d r hks hles3 hnes hmem huniq2
    have hvalf : (dict_lookup vf.interact_camera_widgets t).map Widget.value = some wtv := by
      rw [hpres.2.2.2.2.2 t]
      exact hwtv
    obtain ⟨wt, hwt, hwtval⟩ := Option.map_eq_some'.mp hvalf
    obtain ⟨wd, hwd, hwddis⟩ := Option.map_eq_some'.mp hdis
    exact ⟨wt, wd, hwt, hwd, by rw [hwddis, hwtval]⟩

theorem c3_witness :
    ∃ wt wd, dict_lookup w_viewer.interact_camera_widgets "B" = some wt ∧
      dict_lookup w_viewer.interact_camera_widgets "A" = some wd ∧
      wd.disabled = decide (wt.value ≠ FeatValue.num 2) :=
  c3_dependency_propagation.2 (initial_viewer ab_camera) forward_dep_config w_viewer []
    "B" [("A", FeatValue.num 2)] "A" (FeatValue.num 2) rfl rfl (by decide) (by decide)

theorem add_user_actions_installs (v : Viewer) :
    (dict_lookup (add_user_actions_to_widgets v).interact_action_widgets
        "LoadConfig").isSome = true ∧
    (dict_lookup (add_user_actions_to_widgets v).interact_action_widgets
        "SaveConfig").isSome = true ∧
    (dict_lookup (add_user_actions_to_widgets v).interact_action_widgets
        "ContinuousShot").isSome = true ∧
    (dict_lookup (add_user_actions_to_widgets v).interact_action_widgets
        "SingleShot").isSome = true ∧
    (dict_lookup (add_user_actions_to_widgets v).interact_action_widgets
        "StatusLabel").isSome = true := by
  rcases hd : v.default_user_set with _ | s <;>
    simp [add_user_actions_to_widgets, hd, dict_insert, dict_lookup]

theorem add_user_actions_fields (v : Viewer) :
    (add_user_actions_to_widgets v).features_layout = v.features_layout ∧
    (add_user_actions_to_widgets v).actions_layout = v.actions_layout := by
  rcases hd : v.default_user_set with _ | s <;>
    simp [add_user_actions_to_widgets, hd]

/-- Claim C10: a configuration without the features key is interpreted
without error: the missing-features warning is emitted, the feature control
set ends up empty, the action controls are installed, and the supplied
layouts are taken over. -/
theorem c10_missing_features :
    ∀ (v : Viewer) (cfg : Config), cfg.features = none →
      ∃ v2, set_configuration v cfg = .ok (v2, [ConfigWarning.missingFeatures]) ∧
        v2.interact_camera_widgets = [] ∧
        (dict_lookup v2.interact_action_widgets "LoadConfig").isSome = true ∧
        (dict_lookup v2.interact_action_widgets "SaveConfig").isSome = true ∧
        (dict_lookup v2.interact_action_widgets "ContinuousShot").isSome = true ∧
        (dict_lookup v2.interact_action_widgets "SingleShot").isSome = true ∧
        (dict_lookup v2.interact_action_widgets "StatusLabel").isSome = true ∧
        v2.features_layout = cfg.features_layout.getD v.features_layout ∧
        v2.actions_layout = cfg.actions_layout.getD v.actions_layout := by
  intro v cfg hf
  have heq : set_configuration v cfg =
      .ok ({ add_user_actions_to_widgets
              { v with
                features_layout := cfg.features_layout.getD v.features_layout,
                actions_layout := cfg.actions_layout.getD v.actions_layout,
                default_user_set := match cfg.default_user_set with
                  | some s => some s
                  | none => v.default_user_set } with
              dependecies := ([] : List (String × List (String × FeatValue))),
              interact_camera_widgets := ([] : List (String × Widget)) },
            [ConfigWarning.missingFeatures]) := by
    simp only [set_configuration, hf, register_deps, List.map_nil]
  exact ⟨_, heq, rfl, (add_user_actions_installs _).1, (add_user_actions_installs _).2.1,
    (add_user_actions_installs _).2.2.1, (add_user_actions_installs _).2.2.2.1,
    (add_user_actions_installs _).2.2.2.2, (add_user_actions_fields _).1,
    (add_user_actions_fields _).2⟩

theorem c10_witness :
    ∃ v2, set_configuration (initial_viewer gain_camera) no_features_config =
        .ok (v2, [ConfigWarning.missingFeatures]) ∧
      v2.interact_camera_widgets = [] ∧
      (dict_lookup v2.interact_action_widgets "LoadConfig").isSome = true ∧
      (dict_lookup v2.interact_action_widgets "SaveConfig").isSome = true ∧
      (dict_lookup v2.interact_action_widgets "ContinuousShot").isSome = true ∧
      (dict_lookup v2.interact_action_widgets "SingleShot").isSome = true ∧
      (dict_lookup v2.interact_action_widgets "StatusLabel").isSome = true ∧
      v2.features_layout =
        no_features_config.features_layout.getD (initial_viewer gain_camera).features_layout ∧
      v2.actions_layout =
        no_features_config.actions_layout.getD (initial_viewer gain_camera).actions_layout :=
  c10_missing_features (initial_viewer gain_camera) no_features_config rfl

theorem uvw_id {v : Viewer} (h : v.disable_updates = true) :
    update_values_from_widgets v = v := by
  unfold update_values_from_widgets
  rw [if_pos h]

theorem observer_fire (v1 : Viewer) (name : String) (newVal : FeatValue)
    (hwf : deps_wf v1) :
    ∃ v2, (if (dict_lookup v1.dependecies name).isSome then
             event_handler_for_dependencies v1 name newVal
           else .ok v1) = .ok v2 ∧ preserves v1 v2 := by
  by_cases hdd : (dict_lookup v1.dependecies name).isSome = true
  · rw [if_pos hdd]
    cases hl : dict_lookup v1.dependecies name with
    | none => rw [hl] at hdd; simp at hdd
    | some es =>
        have hpresent : ∀ q ∈ es,
            (dict_lookup v1.interact_camera_widgets q.1).isSome = true := by
          intro q hq
          exact hwf (name, es) (dict_lookup_mem hl) q hq
        obtain ⟨v2, hsdd⟩ := sdd_ok newVal es v1 hpresent
        refine ⟨v2, ?_, sdd_preserves newVal es v1 v2 hsdd⟩
        unfold event_handler_for_dependencies
        simp only [hl]
        exact hsdd
  · rw [if_neg hdd]
    exact ⟨v1, rfl, preserves_refl v1⟩

theorem swv_ok {v : Viewer} {name : String} {newVal : FeatValue}
    (hdis : v.disable_updates = true)
    (hw : (dict_lookup v.interact_camera_widgets name).isSome = true)
    (hwf : deps_wf v) :
    ∃ v2, set_widget_value v name newVal = .ok v2 ∧
      v2.camera = v.camera ∧ v2.disable_updates = true ∧
      v2.dependecies = v.dependecies ∧
      (∀ n, (dict_lookup v2.interact_camera_widgets n).isSome =
            (dict_lookup v.interact_camera_widgets n).isSome) ∧
      (dict_lookup v2.interact_camera_widgets name).map Widget.value = some newVal ∧
      (∀ n, n ≠ name → (dict_lookup v2.interact_camera_widgets n).map Widget.value =
            (dict_lookup v.interact_camera_widgets n).map Widget.value) ∧
      deps_wf v2 := by
  cases hl : dict_lookup v.interact_camera_widgets name with
  | none => rw [hl] at hw; simp at hw
  | some w =>
      by_cases hv : w.value = newVal
      · refine ⟨v, ?_, rfl, hdis, rfl, fun _ => rfl, ?_, fun _ _ => rfl, hwf⟩
        · unfold set_widget_value
          simp only [hl]
          rw [if_pos hv]
        · rw [hl]
          simp [hv]
      · have hwf1 : deps_wf { v with interact_camera_widgets := dict_insert v.interact_camera_widgets name { w with value := newVal } } := by
          intro p hp q hq
          have := hwf p hp q hq
          show (dict_lookup (dict_insert v.interact_camera_widgets name
            { w with value := newVal }) q.1).isSome = true
          rw [dict_lookup_insert_isSome (by simp [hl])]
          exact this
        obtain ⟨v2, hobs, hpres⟩ := observer_fire
          { v with interact_camera_widgets := dict_insert v.interact_camera_widgets name { w with value := newVal } }
          name newVal hwf1
        have hflag2 : v2.disable_updates = true := by rw [hpres.2.2.1]; exact hdis
        refine ⟨v2, ?_, hpres.1, hflag2, hpres.2.1, ?_, ?_, ?_, ?_⟩
        · unfold set_widget_value
          simp only [hl]
          rw [if_neg hv]
          simp only [hobs]
          rw [uvw_id hflag2]
        · intro n
          rw [hpres.2.2.2.2.1 n]
          exact dict_lookup_insert_isSome (by simp [hl]) n
        · rw [hpres.2.2.2.2.2 name]
          show (dict_lookup (dict_insert v.interact_camera_widgets name
            { w with value := newVal }) name).map Widget.value = some newVal
          rw [dict_lookup_insert_self]
          rfl
        · intro n hn
          rw [hpres.2.2.2.2.2 n]
          show (dict_lookup (dict_insert v.interact_camera_widgets name
            { w with value := newVal }) n).map Widget.value =
            (dict_lookup v.interact_camera_widgets n).map Widget.value
          rw [dict_lookup_insert_ne _ _ _ _ (Ne.symm hn)]
        · intro p hp q hq
          rw [hpres.2.2.2.2.1 q.1]
          have hp2 : p ∈ v.dependecies := by rw [← hpres.2.1]; exact hp
          exact hwf1 p hp2 q hq

theorem refresh_ok :
    ∀ (ns : List String) (v : Viewer),
      v.disable_updates = true → deps_wf v →
      (∀ n ∈ ns, (dict_lookup v.interact_camera_widgets n).isSome = true) →
      (∀ n ∈ ns, (dict_lookup v.camera.features n).isSome = true) →
      ∃ v2, refresh_widgets_from_camera v ns = .ok v2 ∧
        v2.camera = v.camera ∧ v2.disable_updates = true ∧
        (∀ n, (dict_lookup v2.interact_camera_widgets n).isSome =
              (dict_lookup v.interact_camera_widgets n).isSome) ∧
        (∀ n ∈ ns, (dict_lookup v2.interact_camera_widgets n).map Widget.value =
              (dict_lookup v.camera.features n).map PylonFeature.value) ∧
        (∀ n, n ∉ ns → (dict_lookup v2.interact_camera_widgets n).map Widget.value =
              (dict_lookup v.interact_camera_widgets n).map Widget.value)
  | [], v, hdis, hwf, _, _ =>
      ⟨v, rfl, rfl, hdis, fun _ => rfl, by simp, fun _ _ => rfl⟩
  | n0 :: ns, v, hdis, hwf, hwid, hcam => by
      have hc0 := hcam n0 (List.mem_cons_self _ _)
      cases hl : dict_lookup v.camera.features n0 with
      | none => rw [hl] at hc0; simp at hc0
      | some pf =>
          obtain ⟨v1, hswv, hcam1, hdis1, _, hkeys1, hval1, hothers1, hwf1⟩ :=
            @swv_ok v n0 pf.value hdis (hwid n0 (List.mem_cons_self _ _)) hwf
          obtain ⟨v2, hrec, hcam2, hdis2, hkeys2, hvals2, hothers2⟩ :=
            refresh_ok ns v1 hdis1 hwf1
              (fun n hn => by rw [hkeys1]; exact hwid n (List.mem_cons_of_mem _ hn))
              (fun n hn => by rw [hcam1]; exact hcam n (List.mem_cons_of_mem _ hn))
          refine ⟨v2, ?_, by rw [hcam2, hcam1], hdis2,
            fun n => by rw [hkeys2 n, hkeys1 n], ?_, ?_⟩
          · rw [refresh_widgets_from_camera]
            simp only [hl, hswv]
            exact hrec
          · intro n hn
            rcases List.mem_cons.mp hn with he | hm
            · subst he
              by_cases hnin : n ∈ ns
              · rw [hvals2 n hnin, hcam1]
              · rw [hothers2 n hnin, hval1, hl]
                rfl
            · rw [hvals2 n hm, hcam1]
          · intro n hn
            have hn2 : n ≠ n0 ∧ n ∉ ns := by
              constructor
              · intro he; exact hn (he ▸ List.mem_cons_self _ _)
              · intro hm; exact hn (List.mem_cons_of_mem _ hm)
            rw [hothers2 n hn2.2, hothers1 n hn2.1]

theorem uvc_ok {v : Viewer} (hwf : deps_wf v)
    (hcam : ∀ n, (dict_lookup v.interact_camera_widgets n).isSome = true →
        (dict_lookup v.camera.features n).isSome = true) :
    ∃ v2, update_values_from_camera v = .ok v2 ∧
      v2.camera = v.camera ∧ v2.disable_updates = false ∧
      (∀ n, (dict_lookup v2.interact_camera_widgets n).isSome =
            (dict_lookup v.interact_camera_widgets n).isSome) ∧
      (∀ n w, dict_lookup v2.interact_camera_widgets n = some w →
        ∃ pf, dict_lookup v.camera.features n = some pf ∧ w.value = pf.value) := by
  have hwf1 : deps_wf { v with disable_updates := true } := hwf
  have hcam1 : ∀ n ∈ v.interact_camera_widgets.map Prod.fst,
      (dict_lookup ({ v with disable_updates := true } : Viewer).camera.features n).isSome
        = true := by
    intro n hn
    exact hcam n (dict_lookup_isSome_iff.mpr hn)
  have hwid1 : ∀ n ∈ v.interact_camera_widgets.map Prod.fst,
      (dict_lookup ({ v with disable_updates := true } :
        Viewer).interact_camera_widgets n).isSome = true := by
    intro n hn
    exact dict_lookup_isSome_iff.mpr hn
  obtain ⟨v2, href, hcam2, _, hkeys2, hvals2, _⟩ :=
    refresh_ok (v.interact_camera_widgets.map Prod.fst)
      { v with disable_updates := true } rfl hwf1 hwid1 hcam1
  refine ⟨{ v2 with disable_updates := false }, ?_, hcam2, rfl, hkeys2, ?_⟩
  · unfold update_values_from_camera
    simp only [href]
  · intro n w hw
    have hn : n ∈ v.interact_camera_widgets.map Prod.fst := by
      rw [← dict_lookup_isSome_iff, ← hkeys2 n]
      show (dict_lookup v2.interact_camera_widgets n).isSome = true
      rw [hw]
      rfl
    have hv := hvals2 n hn
    have hw2 : dict_lookup v2.interact_camera_widgets n = some w := hw
    rw [hw2] at hv
    cases hlc : dict_lookup v.camera.features n with
    | none =>
        rw [hlc] at hv
        simp at hv
    | some pf =>
        rw [hlc] at hv
        simp at hv
        exact ⟨pf, rfl, hv⟩

/-- Claim C2: the Load configuration action refreshes every widget value from
the device state after the load, and the refresh itself performs no device
write: update propagation is suppressed while refreshing, so the camera state
(including its write counter) is exactly the post-load state. -/
theorem c2_load_refresh_no_device_write :
    ∀ (v : Viewer) (device_load : Camera → Camera),
      deps_wf v →
      (∀ n ∈ v.interact_camera_widgets.map Prod.fst,
          (dict_lookup (device_load v.camera).features n).isSome = true) →
      ∃ v2, load_config_action v device_load = .ok v2 ∧
        v2.camera = device_load v.camera ∧
        v2.camera.writes = (device_load v.camera).writes ∧
        v2.disable_updates = false ∧
        (∀ n w, dict_lookup v2.interact_camera_widgets n = some w →
          ∃ pf, dict_lookup (device_load v.camera).features n = some pf ∧
            w.value = pf.value) := by
  intro v device_load hwf hcam
  have hwfb : deps_wf { set_status v ("Status: Loading configuration from " ++
      v.camera.userSetSelector) with
      camera := device_load (set_status v ("Status: Loading configuration from " ++
        v.camera.userSetSelector)).camera } := hwf
  have hcamb : ∀ n, (dict_lookup ({ set_status v
        ("Status: Loading configuration from " ++ v.camera.userSetSelector) with
        camera := device_load (set_status v ("Status: Loading configuration from " ++
          v.camera.userSetSelector)).camera } :
          Viewer).interact_camera_widgets n).isSome = true →
      (dict_lookup ({ set_status v
        ("Status: Loading configuration from " ++ v.camera.userSetSelector) with
        camera := device_load (set_status v ("Status: Loading configuration from " ++
          v.camera.userSetSelector)).camera } :
          Viewer).camera.features n).isSome = true := by
    intro n hn
    exact hcam n (dict_lookup_isSome_iff.mp hn)
  obtain ⟨v2x, huvc, hc, hflag, _, hvals⟩ := uvc_ok hwfb hcamb
  refine ⟨set_status v2x ("Status: Configuration was loaded from " ++
    v2x.camera.userSetSelector), ?_, ?_, ?_, hflag, ?_⟩
  · unfold load_config_action
    simp only [huvc]
  · exact hc
  · rw [show (set_status v2x ("Status: Configuration was loaded from " ++
      v2x.camera.userSetSelector)).camera = v2x.camera from rfl, hc]
    rfl
  · intro n w hw
    exact hvals n w hw

theorem c2_witness :
    deps_wf c2_viewer ∧
    ∃ v2, load_config_action c2_viewer c2_load = .ok v2 ∧
      v2.camera = c2_load c2_viewer.camera ∧
      v2.camera.writes = (c2_load c2_viewer.camera).writes ∧
      v2.disable_updates = false ∧
      (∀ n w, dict_lookup v2.interact_camera_widgets n = some w →
        ∃ pf, dict_lookup (c2_load c2_viewer.camera).features n = some pf ∧
          w.value = pf.value) :=
  ⟨by intro p hp q hq; simp [c2_viewer, initial_viewer] at hp,
   c2_load_refresh_no_device_write c2_viewer c2_load
     (by intro p hp q hq; simp [c2_viewer, initial_viewer] at hp)
     (by decide)⟩

end PCV
